import Mathlib

/-!
Verification of the labyrinth page generator (`js/labyrinth.js`, function
`random_content`).  The development shallowly embeds the generator: the
corpus file is a list of characters (one list element per byte), the njs
request variables are optional strings, randomness (offsets and page-id
fractions) is supplied as explicit streams, and the try/catch/finally
structure of the source is made explicit in an `Outcome` record that also
tracks file accesses and file-descriptor lifecycle.
-/

namespace Labyrinth

/-- Fractional base-36 digit characters: `0`-`9` and `a`-`z`.  These are the
only characters `Number.prototype.toString(36)` emits after the `0.` prefix. -/
def isBase36Digit (c : Char) : Bool :=
  ('0' ≤ c && c ≤ '9') || ('a' ≤ c && c ≤ 'z')

/-- `parseInt(s, 10)` digit scanner: consumes leading decimal digits,
accumulating their value; returns `none` (JavaScript `NaN`) when no digit was
seen before the first non-digit / end of string. -/
def jsParseIntCore : List Char → Nat → Bool → Option Nat
  | [], acc, seen => if seen then some acc else none
  | c :: t, acc, seen =>
    if '0' ≤ c ∧ c ≤ '9' then
      jsParseIntCore t (acc * 10 + (c.toNat - '0'.toNat)) true
    else
      if seen then some acc else none

/-- Leading whitespace skipped by `parseInt`. -/
def skipWs (l : List Char) : List Char :=
  l.dropWhile (fun c => c == ' ' || c == '\t' || c == '\n' || c == '\r')

/-- JavaScript `parseInt(s, 10)`: optional sign, then leading decimal digits;
`none` models the `NaN` result.  (Source lines 177 and 189.) -/
def jsParseInt (s : String) : Option Int :=
  match skipWs s.toList with
  | '-' :: t => (jsParseIntCore t 0 false).map (fun n => -(n : Int))
  | '+' :: t => (jsParseIntCore t 0 false).map (fun n => (n : Int))
  | l => (jsParseIntCore l 0 false).map (fun n => (n : Int))

/-- JavaScript `s.slice(b, e)` on strings, with negative-index resolution:
a negative index counts from the end (clamped at 0), a non-negative index is
clamped at the length.  The source uses `line_read.slice(0, total_size -
(concatenated_text_length + line_read.length))` (line 273). -/
def jsSlice (s : List Char) (b e : Int) : List Char :=
  let bb : Nat := if b < 0 then (s.length + b).toNat else min b.toNat s.length
  let ee : Nat := if e < 0 then (s.length + e).toNat else min e.toNat s.length
  (s.take ee).drop bb

/-- First normalization pass, source line 266:
`line_read.replace(/(\r*\n)+/g, ' ')`.

Embedded as a left-to-right character automaton: `pending` counts carriage
returns that may yet be part of a `(\r*\n)` group; `inRun` records that a
group of the current maximal run has already been matched (the single
replacement space is emitted at the first group, later groups of the same
run add nothing).  Carriage returns not followed by a line feed are emitted
verbatim (the regex group requires a terminating `\n`). -/
def norm1Go : Nat → Bool → List Char → List Char
  | pending, _, [] => List.replicate pending '\r'
  | pending, inRun, c :: rest =>
    if c = '\r' then norm1Go (pending + 1) inRun rest
    else if c = '\n' then
      (if inRun then [] else [' ']) ++ norm1Go 0 true rest
    else
      List.replicate pending '\r' ++ c :: norm1Go 0 false rest

/-- `line_read.replace(/(\r*\n)+/g, ' ')` (source line 266). -/
def norm1 (l : List Char) : List Char := norm1Go 0 false l

/-- Second normalization pass, source line 267:
`line_read.replace(/ +/g, ' ')` — every maximal run of spaces collapses to a
single space (a run of length one is replaced by itself). -/
def norm2 : List Char → List Char
  | [] => []
  | [c] => [c]
  | c :: c2 :: rest =>
    if c = ' ' ∧ c2 = ' ' then norm2 (c2 :: rest)
    else c :: norm2 (c2 :: rest)

/-- The full normalization applied to each decoded block (source lines
266-267). -/
def normalizeText (l : List Char) : List Char := norm2 (norm1 l)

/-- One iteration's file reads (source lines 249-260): `fs.readSync` at the
random offset for up to `blockSize` bytes, then — if that returned fewer than
`blockSize` bytes — a second read of the remaining bytes from offset 0.  The
buffer was zero-filled by `Buffer.alloc`, so any bytes both reads leave
unwritten decode as NUL characters (unreachable once the block size is
clamped to the corpus length). -/
def readBlock (corpus : List Char) (blockSize offset : Nat) : List Char :=
  let first := (corpus.drop offset).take blockSize
  let second := corpus.take (blockSize - first.length)
  let bytes := first ++ second
  bytes ++ List.replicate (blockSize - bytes.length) (Char.ofNat 0)

/-- `Math.random().toString(36)` for a value in `[0, 1)`, abstracted over the
printed fractional digit list `ds`: the value 0 prints as `"0"` (empty `ds`),
a nonzero value prints as `"0."` followed by its fractional digits. -/
def jsNumberToString36 (ds : List Char) : List Char :=
  if ds = [] then ['0'] else '0' :: '.' :: ds

/-- `String.prototype.substring(i)`: characters from index `i` on. -/
def jsSubstringFrom (s : List Char) (i : Nat) : List Char := s.drop i

/-- `Math.random().toString(36).substring(2)` (source line 290): the page
identifier used in each generated link. -/
def randomPageId (ds : List Char) : List Char :=
  jsSubstringFrom (jsNumberToString36 ds) 2

/-- The link target built on source line 290:
`base_path + Math.random().toString(36).substring(2) + '.html'`. -/
def mkHref (basePath ds : List Char) : List Char :=
  basePath ++ randomPageId ds ++ ".html".toList

/-- One hyperlink-wrapped fragment of sampled text. -/
structure Fragment where
  text : List Char
  href : List Char
deriving DecidableEq, Repr

/-- The anchor markup of source line 290:
`'<a href="' + href + '">' + line_read + '</a>'`. -/
def renderFragment (f : Fragment) : List Char :=
  "<a href=\"".toList ++ f.href ++ "\">".toList ++ f.text ++ "</a>".toList

/-- `built_contents`: the fragments' markup concatenated in generation
order. -/
def renderFrags (l : List Fragment) : List Char :=
  (l.map renderFragment).flatten

/-- The fixed page template of source lines 299-309, up to the injected
contents. -/
def pageHead : String :=
  "<!DOCTYPE html>\n<html lang=\"en\">\n    <head>\n        <meta charset=\"UTF-8\">\n        <title>Replicant EPHI</title>\n        <link rel=\"stylesheet\" href=\"/css/style.css\">\n    </head>\n    <body>\n        <div id=\"container\"><p>"

/-- The fixed page template of source lines 299-309, after the injected
contents. -/
def pageTail : String := "</p></div>\n    </body>\n</html>"

/-- The final HTML document (source lines 299-309). -/
def renderPage (contents : List Char) : List Char :=
  pageHead.toList ++ contents ++ pageTail.toList

/-- Result of the sampling loop: fragments in generation order, the final
`concatenated_text_length`, and the remaining `loop_limiter` budget. -/
structure LoopOut where
  frags : List Fragment
  clen : Nat
  fuelLeft : Nat
deriving DecidableEq, Repr

/-- The sampling loop of source lines 237-294.  `fuel` is the remaining
`loop_limiter`, `c` the running `concatenated_text_length`, `i` the iteration
index used to draw from the offset stream `offs` and the page-id stream
`ids`.  Each pass reads a block at a random offset (with wraparound),
normalizes it, truncates it when it would overshoot `T` (landing the total
exactly on `T`, source lines 272-281), and appends the hyperlink-wrapped
fragment. -/
def sampleLoop (corpus bp : List Char) (B T : Nat) (offs : Nat → Nat)
    (ids : Nat → List Char) : Nat → Nat → Nat → LoopOut
  | 0, c, _ => ⟨[], c, 0⟩
  | fuel + 1, c, i =>
    if c < T then
      let line := normalizeText (readBlock corpus B (offs i))
      if c + line.length > T then
        let tline := jsSlice line 0 ((T : Int) - ((c : Int) + (line.length : Int)))
        let rest := sampleLoop corpus bp B T offs ids fuel T (i + 1)
        ⟨⟨tline, mkHref bp (ids i)⟩ :: rest.frags, rest.clen, rest.fuelLeft⟩
      else
        let rest := sampleLoop corpus bp B T offs ids fuel (c + line.length) (i + 1)
        ⟨⟨line, mkHref bp (ids i)⟩ :: rest.frags, rest.clen, rest.fuelLeft⟩
    else ⟨[], c, fuel + 1⟩

/-- `Math.ceil(a / b)` for the positive integers reaching source line 233. -/
def jsCeilDiv (a b : Nat) : Nat := (a + b - 1) / b

/-- The loop as `random_content` enters it: `loop_limiter` initialized to
`Math.ceil(total_size / block_size) * 2` (source line 233),
`concatenated_text_length` to 0 (source line 226). -/
def generateFrags (corpus bp : List Char) (B T : Nat) (offs : Nat → Nat)
    (ids : Nat → List Char) : LoopOut :=
  sampleLoop corpus bp B T offs ids (jsCeilDiv T B * 2) 0 0

/-- `Math.min(corpus_stats.size, requested)` — the clamping of `block_size`
and `total_size` on source lines 210 and 213. -/
def effectiveSize (corpusLen requested : Nat) : Nat := min corpusLen requested

/-- Sum of fragment text lengths — the quantity `concatenated_text_length`
tracks, post-normalization and pre-link-wrapping. -/
def fragTextSum (l : List Fragment) : Nat := (l.map (fun f => f.text.length)).sum

/-- The class of the JavaScript error thrown on a failure path of
`random_content`: `RangeError` (empty/non-positive argument values),
`SyntaxError` (missing arguments, constructor `missingError`), plain `Error` (empty corpus file), and
the errors `fs.statSync` / `fs.openSync` / `fs.readSync` throw. -/
inductive JsErrClass
  | rangeError
  | missingError
  | genericError
  | ioError
deriving DecidableEq, Repr

/-- The njs request variables consumed by `random_content`.  Every value is
delivered as a string; `none` models a variable for which
`r.variables.hasOwnProperty` is false. -/
structure Variables where
  base_path : Option String
  corpus : Option String
  block_size : Option String
  total_size : Option String

/-- The environment of a single invocation: the file system (path to corpus
bytes; `none` makes `fs.statSync` throw), failure switches for
`fs.openSync`, the first `fs.readSync`, and `fs.closeSync`, and the two
random streams drawn in each loop iteration — the read offset
(`Math.floor(Math.random() * corpus_stats.size)`) and the fractional
base-36 digits of the page-id `Math.random()` value. -/
structure Env where
  file : String → Option (List Char)
  openFails : Bool
  readFails : Bool
  closeFails : Bool
  offs : Nat → Nat
  ids : Nat → List Char

/-- Observable result of one `random_content` invocation: the `r.return`
status and body, whether `fs.statSync` was reached (`fileAccessed`),
whether the corpus fd was opened, whether `fs.closeSync` was called in the
`finally` block, whether a close failure was logged, and the class of the
caught error (if any). -/
structure Outcome where
  status : Nat
  body : List Char
  fileAccessed : Bool
  opened : Bool
  closeCalled : Bool
  closeFailedLogged : Bool
  errClass : Option JsErrClass
deriving DecidableEq, Repr

/-- The fixed caller-safe error body of source line 320. -/
def genericErrorBody : String :=
  "Replicant data could not be loaded. Please contact a system administrator."

/-- Outcome of the catch block (source lines 314-321) followed by the
finally block (lines 323-334): status 500 with the generic message; the fd
is closed exactly when it was opened, and a failing close is only logged. -/
def errOutcome (c : JsErrClass) (fileAccessed opened closeFails : Bool) : Outcome :=
  { status := 500, body := genericErrorBody.toList, fileAccessed := fileAccessed,
    opened := opened, closeCalled := opened,
    closeFailedLogged := opened && closeFails, errClass := some c }

/-- Size-argument validation of source lines 176-197: a missing value takes
the default; a supplied value goes through `parseInt(·, 10)` and only a
result `<= 0` throws `RangeError` — the `NaN` result of an unparseable
string compares false and passes through (`none` in the returned value). -/
def validateSize (v : Option String) (dflt : Int) : Except JsErrClass (Option Int) :=
  match v with
  | some s =>
    match jsParseInt s with
    | some n => if n ≤ 0 then .error .rangeError else .ok (some n)
    | none => .ok none
  | none => .ok (some dflt)

/-- The validated arguments: normalized base path, corpus path, and the two
sizes (`none` models the `NaN` a failed `parseInt` leaves behind). -/
structure Args where
  base_path : List Char
  corpus : String
  block_size : Option Int
  total_size : Option Int
deriving DecidableEq, Repr

/-- Trailing-slash normalization of source lines 159-163. -/
def normalizeBasePath (bp : String) : List Char :=
  if bp.toList.getLast? = some '/' then bp.toList else bp.toList ++ ['/']

/-- Argument validation in source order (lines 150-197): base path presence
and non-emptiness, trailing-slash normalization, corpus presence and
non-emptiness, then the two size arguments. -/
def validateArgs (v : Variables) : Except JsErrClass Args :=
  match v.base_path with
  | none => .error .missingError
  | some bp =>
    if bp = "" then .error .rangeError
    else
      match v.corpus with
      | none => .error .missingError
      | some cp =>
        if cp = "" then .error .rangeError
        else
          match validateSize v.block_size 80 with
          | .error e => .error e
          | .ok bs =>
            match validateSize v.total_size 500 with
            | .error e => .error e
            | .ok ts => .ok ⟨normalizeBasePath bp, cp, bs, ts⟩

/-- The whole of `random_content` (source lines 56-335).  After validation,
`fs.statSync` is the first file access; an empty corpus throws; the two
sizes are clamped to the corpus length (lines 210, 213); the fd is opened;
then the sampling loop runs and the page is returned with status 200.  When
`parseInt` left `NaN` in either size, every comparison against it is false:
`Math.min` propagates `NaN`, the loop guard `concatenated_text_length <
total_size` (or `loop_limiter > 0` with a `NaN` limiter) is false, so the
loop body never runs and the page is emitted with empty contents.  The
catch/finally structure maps every thrown error to the 500 outcome, closing
the fd exactly when it was opened. -/
def random_content (v : Variables) (env : Env) : Outcome :=
  match validateArgs v with
  | .error c => errOutcome c false false env.closeFails
  | .ok args =>
    match env.file args.corpus with
    | none => errOutcome .ioError true false env.closeFails
    | some corpus =>
      if corpus.length = 0 then errOutcome .genericError true false env.closeFails
      else if env.openFails then errOutcome .ioError true false env.closeFails
      else
        match args.block_size, args.total_size with
        | some b, some t =>
          let B := effectiveSize corpus.length b.toNat
          let T := effectiveSize corpus.length t.toNat
          if env.readFails then errOutcome .ioError true true env.closeFails
          else
            { status := 200,
              body := renderPage (renderFrags
                (generateFrags corpus args.base_path B T env.offs env.ids).frags),
              fileAccessed := true, opened := true, closeCalled := true,
              closeFailedLogged := env.closeFails, errClass := none }
        | _, _ =>
          { status := 200, body := renderPage [], fileAccessed := true,
            opened := true, closeCalled := true,
            closeFailedLogged := env.closeFails, errClass := none }

/-- Substring test: does `pat` occur contiguously inside `l`? -/
def occursIn : List Char → List Char → Bool
  | [], pat => pat.isEmpty
  | c :: t, pat => pat.isPrefixOf (c :: t) || occursIn t pat

/-- Strings matching the full regex `(\r*\n)+` of source line 266: one or
more groups, each zero or more carriage returns followed by a line feed. -/
inductive IsNLRun : List Char → Prop
  | last (k : Nat) : IsNLRun (List.replicate k '\r' ++ ['\n'])
  | cons (k : Nat) (r : List Char) : IsNLRun r →
      IsNLRun (List.replicate k '\r' ++ '\n' :: r)

/-- `c` is neither a carriage return nor a line feed. -/
def noNLCharB (c : Char) : Bool := !(c == '\r' || c == '\n')

/-- The last character of `l` (if any) is neither CR nor LF — the left
boundary condition making a newline run maximal. -/
def lastNoNL : List Char → Bool
  | [] => true
  | [c] => noNLCharB c
  | _ :: t => lastNoNL t

/-- The first character of `l` (if any) is neither CR nor LF — the right
boundary condition making a newline run maximal. -/
def headNoNL : List Char → Bool
  | [] => true
  | c :: _ => noNLCharB c

/-- The last character of `l` (if any) is not a space. -/
def lastNoSpace : List Char → Bool
  | [] => true
  | [c] => !(c == ' ')
  | _ :: t => lastNoSpace t

/-- The first character of `l` (if any) is not a space. -/
def headNoSpace : List Char → Bool
  | [] => true
  | c :: _ => !(c == ' ')

/-- Does `l` contain two adjacent spaces? -/
def hasDoubleSpace : List Char → Bool
  | c :: c2 :: rest => (c == ' ' && c2 == ' ') || hasDoubleSpace (c2 :: rest)
  | _ => false

/-! ### Helper lemmas about the sampling loop -/

/-- Length of the truncated line on source line 273: `slice(0, total_size -
(concatenated_text_length + line_read.length))` has a negative end index, so
it keeps exactly `total_size - concatenated_text_length` characters. -/
theorem jsSlice_trunc_length (line : List Char) (c T : Nat)
    (h1 : c < T) (h2 : T < c + line.length) :
    (jsSlice line 0 ((T : Int) - ((c : Int) + (line.length : Int)))).length
      = T - c := by
  have hneg : ((T : Int) - ((c : Int) + (line.length : Int))) < 0 := by omega
  simp only [jsSlice, List.drop_eq_getElem_cons, if_pos hneg]
  rw [if_neg (by omega : ¬ ((0 : Int) < 0))]
  simp only [Int.toNat_zero, Nat.min_eq_left (Nat.zero_le _), List.drop_zero,
    List.length_take]
  omega

/-- Loop invariant for `sampleLoop` (source lines 237-294): starting from
`concatenated_text_length = c ≤ T`, the final accumulated length never
exceeds `T`; the fragment text lengths sum to exactly the growth of the
accumulator; when the loop exits with budget remaining, the accumulator
landed exactly on `T`; and the number of iterations plus the leftover budget
equals the initial budget. -/
theorem sampleLoop_spec (corpus bp : List Char) (B T : Nat) (offs : Nat → Nat)
    (ids : Nat → List Char) :
    ∀ (fuel c i : Nat), c ≤ T →
      (sampleLoop corpus bp B T offs ids fuel c i).clen ≤ T ∧
      fragTextSum (sampleLoop corpus bp B T offs ids fuel c i).frags + c
        = (sampleLoop corpus bp B T offs ids fuel c i).clen ∧
      ((sampleLoop corpus bp B T offs ids fuel c i).fuelLeft ≠ 0 →
        (sampleLoop corpus bp B T offs ids fuel c i).clen = T) ∧
      (sampleLoop corpus bp B T offs ids fuel c i).frags.length
        + (sampleLoop corpus bp B T offs ids fuel c i).fuelLeft = fuel := by
  intro fuel
  induction fuel with
  | zero =>
    intro c i hc
    simp [sampleLoop, fragTextSum, hc]
  | succ f ih =>
    intro c i hc
    by_cases hcT : c < T
    · simp only [sampleLoop, if_pos hcT]
      set line := normalizeText (readBlock corpus B (offs i)) with hline
      by_cases hov : c + line.length > T
      · simp only [if_pos hov]
        have hrest := ih T (i + 1) (Nat.le_refl T)
        have hts := jsSlice_trunc_length line c T hcT hov
        simp only [fragTextSum, List.map_cons, List.sum_cons, List.length_cons] at *
        refine ⟨hrest.1, ?_, hrest.2.2.1, by omega⟩
        have := hrest.2.1
        simp only [fragTextSum] at this
        omega
      · simp only [if_neg hov]
        have hcl : c + line.length ≤ T := by omega
        have hrest := ih (c + line.length) (i + 1) hcl
        simp only [fragTextSum, List.map_cons, List.sum_cons, List.length_cons] at *
        refine ⟨hrest.1, ?_, hrest.2.2.1, by omega⟩
        have := hrest.2.1
        omega
    · have hceq : c = T := by omega
      simp [sampleLoop, if_neg hcT, fragTextSum, hc, hceq]

/-! ### C1: accumulated fragment text length -/

/-- C1: For every generation, the accumulated fragment text length
(post-normalization, pre-link-wrapping, summed over all fragments of the
page) never exceeds the effective total size `T`, and equals exactly `T`
unless the loop exited by exhausting the iteration budget first (leftover
budget 0); the truncation of an overshooting fragment lands the total
exactly on `T`. -/
theorem c1_accumulated_length (corpus bp : List Char) (B T : Nat)
    (offs : Nat → Nat) (ids : Nat → List Char) :
    fragTextSum (generateFrags corpus bp B T offs ids).frags ≤ T ∧
    ((generateFrags corpus bp B T offs ids).fuelLeft ≠ 0 →
      fragTextSum (generateFrags corpus bp B T offs ids).frags = T) := by
  have h := sampleLoop_spec corpus bp B T offs ids (jsCeilDiv T B * 2) 0 0
    (Nat.zero_le T)
  unfold generateFrags
  exact ⟨by omega, fun hf => by have := h.2.2.1 hf; omega⟩

/-- Witness for C1: corpus `"abcd"`, block size 2, total size 4 — the loop
exits with budget remaining (2 of 4) and the fragment text sums to exactly
the effective total size 4. -/
theorem c1_accumulated_length_witness :
    (generateFrags "abcd".toList "/e/".toList 2 4 (fun _ => 0)
      (fun _ => ['z'])).fuelLeft ≠ 0 ∧
    fragTextSum (generateFrags "abcd".toList "/e/".toList 2 4 (fun _ => 0)
      (fun _ => ['z'])).frags = 4 :=
  ⟨by decide,
   (c1_accumulated_length "abcd".toList "/e/".toList 2 4 (fun _ => 0)
     (fun _ => ['z'])).2 (by decide)⟩

/-! ### C2: iteration budget and graceful budget exhaustion -/

/-- C2: the sampling loop performs at most
`ceil(effective_total_size / effective_block_size) * 2` iterations (one
fragment is appended per iteration), and for every request that passes
validation on a readable non-empty corpus the page is returned with success
status 200 — also when the budget ran out before the target size was
reached. -/
theorem c2_iteration_budget (corpus bp : List Char) (B T : Nat)
    (offs : Nat → Nat) (ids : Nat → List Char) (v : Variables) (env : Env)
    (args : Args) (content : List Char)
    (hv : validateArgs v = .ok args) (hf : env.file args.corpus = some content)
    (hne : content ≠ []) (hop : env.openFails = false)
    (hrd : env.readFails = false) :
    (generateFrags corpus bp B T offs ids).frags.length ≤ jsCeilDiv T B * 2 ∧
    (random_content v env).status = 200 := by
  constructor
  · have h := sampleLoop_spec corpus bp B T offs ids (jsCeilDiv T B * 2) 0 0
      (Nat.zero_le T)
    unfold generateFrags
    omega
  · have hlen : ¬ content.length = 0 := by
      simpa [List.length_eq_zero] using hne
    cases hbs : args.block_size <;> cases hts : args.total_size <;>
      simp [random_content, hv, hf, hlen, hop, hrd, hbs, hts]

/-- Witness for C2: a corpus consisting entirely of newline characters
(every block normalizes to a single space), block size 4, total size 4 —
generation terminates within the budget `ceil(4/4)*2 = 2`, returns status
200, and the accumulated content (2) is short of the effective total size
(4). -/
theorem c2_iteration_budget_witness :
    (random_content
        ⟨some "/ephi/", some "n.txt", some "4", some "4"⟩
        ⟨fun s => if s = "n.txt" then some (List.replicate 4 '\n') else none,
          false, false, false, fun _ => 0, fun _ => ['z']⟩).status = 200 ∧
    (generateFrags (List.replicate 4 '\n') "/ephi/".toList 4 4 (fun _ => 0)
      (fun _ => ['z'])).frags.length ≤ jsCeilDiv 4 4 * 2 ∧
    fragTextSum (generateFrags (List.replicate 4 '\n') "/ephi/".toList 4 4
      (fun _ => 0) (fun _ => ['z'])).frags < 4 :=
  ⟨(c2_iteration_budget (List.replicate 4 '\n') "/ephi/".toList 4 4
      (fun _ => 0) (fun _ => ['z'])
      ⟨some "/ephi/", some "n.txt", some "4", some "4"⟩
      ⟨fun s => if s = "n.txt" then some (List.replicate 4 '\n') else none,
        false, false, false, fun _ => 0, fun _ => ['z']⟩
      ⟨"/ephi/".toList, "n.txt", some 4, some 4⟩ (List.replicate 4 '\n')
      rfl rfl (by decide) rfl rfl).2,
   (c2_iteration_budget (List.replicate 4 '\n') "/ephi/".toList 4 4
      (fun _ => 0) (fun _ => ['z'])
      ⟨some "/ephi/", some "n.txt", some "4", some "4"⟩
      ⟨fun s => if s = "n.txt" then some (List.replicate 4 '\n') else none,
        false, false, false, fun _ => 0, fun _ => ['z']⟩
      ⟨"/ephi/".toList, "n.txt", some 4, some 4⟩ (List.replicate 4 '\n')
      rfl rfl (by decide) rfl rfl).1,
   by decide⟩

/-! ### C3: size clamping -/

/-- C3: for every generation request that reaches the sampling loop with
parsed sizes `b` and `t`, the successful page body is built by the loop
running on the effective block size `min(corpus length, b)` and the
effective total size `min(corpus length, t)` — both of which are at most
the corpus byte length regardless of the requested values. -/
theorem c3_effective_sizes (v : Variables) (env : Env) (args : Args)
    (content : List Char) (b t : Int)
    (hv : validateArgs v = .ok args) (hbs : args.block_size = some b)
    (hts : args.total_size = some t)
    (hf : env.file args.corpus = some content) (hne : content ≠ [])
    (hop : env.openFails = false) (hrd : env.readFails = false) :
    (random_content v env).body =
      renderPage (renderFrags (generateFrags content args.base_path
        (effectiveSize content.length b.toNat)
        (effectiveSize content.length t.toNat) env.offs env.ids).frags) ∧
    effectiveSize content.length b.toNat = min content.length b.toNat ∧
    effectiveSize content.length t.toNat = min content.length t.toNat ∧
    effectiveSize content.length b.toNat ≤ content.length ∧
    effectiveSize content.length t.toNat ≤ content.length := by
  have hlen : ¬ content.length = 0 := by
    simpa [List.length_eq_zero] using hne
  refine ⟨?_, rfl, rfl, Nat.min_le_left _ _, Nat.min_le_left _ _⟩
  simp [random_content, hv, hf, hlen, hop, hrd, hbs, hts]

/-- Witness for C3: a 5-byte corpus with requested `total_size = 10000`
yields effective total size 5 (and requested `block_size = 2` stays 2); the
returned body is the rendered loop output for those clamped sizes. -/
theorem c3_effective_sizes_witness :
    (random_content
        ⟨some "/ephi/", some "c.txt", some "2", some "10000"⟩
        ⟨fun s => if s = "c.txt" then some "hello".toList else none,
          false, false, false, fun _ => 0, fun _ => ['z']⟩).body =
      renderPage (renderFrags (generateFrags "hello".toList "/ephi/".toList
        (effectiveSize 5 2) (effectiveSize 5 10000) (fun _ => 0)
        (fun _ => ['z'])).frags) ∧
    effectiveSize 5 10000 = 5 ∧ effectiveSize 5 2 = 2 :=
  ⟨(c3_effective_sizes
      ⟨some "/ephi/", some "c.txt", some "2", some "10000"⟩
      ⟨fun s => if s = "c.txt" then some "hello".toList else none,
        false, false, false, fun _ => 0, fun _ => ['z']⟩
      ⟨"/ephi/".toList, "c.txt", some 2, some 10000⟩ "hello".toList 2 10000
      rfl rfl rfl rfl (by decide) rfl rfl).1,
   by decide, by decide⟩

/-! ### C4: wraparound read -/

/-- C4: in every sampling iteration with offset `off < corpus length` and
(clamped) block size `B ≤ corpus length`, the bytes decoded are exactly `B`
bytes: the corpus bytes from the offset to end of file, followed by the
corpus bytes from position 0 covering the shortfall. -/
theorem c4_wraparound_read (corpus : List Char) (B off : Nat)
    (hoff : off < corpus.length) (hB : B ≤ corpus.length) :
    readBlock corpus B off =
      (corpus.drop off).take B ++ corpus.take (B - (corpus.length - off)) ∧
    (readBlock corpus B off).length = B := by
  have hfirst : ((corpus.drop off).take B).length = min B (corpus.length - off) := by
    simp [List.length_take, List.length_drop]
  have harg : B - ((corpus.drop off).take B).length = B - (corpus.length - off) := by
    omega
  have hsec : (corpus.take (B - (corpus.length - off))).length
      = B - (corpus.length - off) := by
    simp only [List.length_take]
    omega
  have hbytes : ((corpus.drop off).take B
      ++ corpus.take (B - (corpus.length - off))).length = B := by
    simp only [List.length_append, hfirst, hsec]
    omega
  constructor
  · simp only [readBlock, harg, hbytes, Nat.sub_self, List.replicate_zero,
      List.append_nil]
  · simp only [readBlock, harg, List.length_append, List.length_replicate]
    simp only [List.length_append] at hbytes
    omega

/-- Witness for C4: corpus `"abcdef"`, block size 4, offset 4 — the two
reads produce `"ef"` (offset to end of file) followed by `"ab"` (wraparound
from position 0), exactly 4 bytes. -/
theorem c4_wraparound_read_witness :
    readBlock "abcdef".toList 4 4 =
      ("abcdef".toList.drop 4).take 4 ++ "abcdef".toList.take 2 ∧
    (readBlock "abcdef".toList 4 4).length = 4 ∧
    readBlock "abcdef".toList 4 4 = "efab".toList :=
  ⟨(c4_wraparound_read "abcdef".toList 4 4 (by decide) (by decide)).1,
   (c4_wraparound_read "abcdef".toList 4 4 (by decide) (by decide)).2,
   by decide⟩

/-! ### C5: size-argument validation (corrected) -/

/-- Counterexample for C5: `block_size = "abc"` is not a positive integer,
yet `parseInt` yields `NaN`, `NaN <= 0` is false, so validation passes and
`fs.statSync` (the first file access) is reached — no `RangeError`-class
validation failure occurs before file access. -/
theorem c5_validation_counterexample :
    validateSize (some "abc") 80 = Except.ok none ∧
    (random_content
        ⟨some "/ephi/", some "c.txt", some "abc", some "500"⟩
        ⟨fun s => if s = "c.txt" then some "hello".toList else none,
          false, false, false, fun _ => 0, fun _ => ['z']⟩).fileAccessed
      = true ∧
    (random_content
        ⟨some "/ephi/", some "c.txt", some "abc", some "500"⟩
        ⟨fun s => if s = "c.txt" then some "hello".toList else none,
          false, false, false, fun _ => 0, fun _ => ['z']⟩).errClass
      = none :=
  ⟨rfl, rfl, rfl⟩

/-- C5 (amended): if omitted, a size argument takes its default (80 for
block size, 500 for total size, per `validateArgs`); a supplied value whose
`parseInt` result is a non-positive number causes a `RangeError`-class
validation failure, and every validation failure is reported with status
500 before any file access; a supplied value with no parseable integer
prefix (`parseInt` → `NaN`) passes size validation instead of failing. -/
theorem c5_size_validation (d : Int) (s : String) (n : Int) (v : Variables)
    (env : Env) (c : JsErrClass) :
    (validateSize none d = .ok (some d)) ∧
    (jsParseInt s = some n → n ≤ 0 →
      validateSize (some s) d = .error .rangeError) ∧
    (jsParseInt s = some n → 0 < n → validateSize (some s) d = .ok (some n)) ∧
    (jsParseInt s = none → validateSize (some s) d = .ok none) ∧
    (validateArgs v = .error c →
      (random_content v env).status = 500 ∧
      (random_content v env).fileAccessed = false ∧
      (random_content v env).errClass = some c) := by
  refine ⟨rfl, ?_, ?_, ?_, ?_⟩
  · intro hp hn
    simp [validateSize, hp, hn]
  · intro hp hn
    have hng : ¬ n ≤ 0 := by omega
    simp [validateSize, hp, hng]
  · intro hp
    simp [validateSize, hp]
  · intro hv
    simp [random_content, hv, errOutcome]

/-- Witness for C5 (amended): `block_size = "-5"` parses to `-5 ≤ 0`, fails
with `RangeError`, and the whole request is rejected with status 500 before
any file access; omitted sizes default to 80 and 500. -/
theorem c5_size_validation_witness :
    validateSize (some "-5") 80 = Except.error JsErrClass.rangeError ∧
    validateSize none 80 = Except.ok (some 80) ∧
    validateSize none 500 = Except.ok (some 500) ∧
    (random_content
        ⟨some "/ephi/", some "c.txt", some "-5", some "500"⟩
        ⟨fun s => if s = "c.txt" then some "hello".toList else none,
          false, false, false, fun _ => 0, fun _ => ['z']⟩).status = 500 ∧
    (random_content
        ⟨some "/ephi/", some "c.txt", some "-5", some "500"⟩
        ⟨fun s => if s = "c.txt" then some "hello".toList else none,
          false, false, false, fun _ => 0, fun _ => ['z']⟩).fileAccessed
      = false :=
  ⟨(c5_size_validation 80 "-5" (-5)
      ⟨some "/ephi/", some "c.txt", some "-5", some "500"⟩
      ⟨fun s => if s = "c.txt" then some "hello".toList else none,
        false, false, false, fun _ => 0, fun _ => ['z']⟩
      JsErrClass.rangeError).2.1 rfl (by decide),
   (c5_size_validation 80 "-5" (-5)
      ⟨some "/ephi/", some "c.txt", some "-5", some "500"⟩
      ⟨fun s => if s = "c.txt" then some "hello".toList else none,
        false, false, false, fun _ => 0, fun _ => ['z']⟩
      JsErrClass.rangeError).1,
   (c5_size_validation 500 "-5" (-5)
      ⟨some "/ephi/", some "c.txt", some "-5", some "500"⟩
      ⟨fun s => if s = "c.txt" then some "hello".toList else none,
        false, false, false, fun _ => 0, fun _ => ['z']⟩
      JsErrClass.rangeError).1,
   ((c5_size_validation 80 "-5" (-5)
      ⟨some "/ephi/", some "c.txt", some "-5", some "500"⟩
      ⟨fun s => if s = "c.txt" then some "hello".toList else none,
        false, false, false, fun _ => 0, fun _ => ['z']⟩
      JsErrClass.rangeError).2.2.2.2 rfl).1,
   ((c5_size_validation 80 "-5" (-5)
      ⟨some "/ephi/", some "c.txt", some "-5", some "500"⟩
      ⟨fun s => if s = "c.txt" then some "hello".toList else none,
        false, false, false, fun _ => 0, fun _ => ['z']⟩
      JsErrClass.rangeError).2.2.2.2 rfl).2.1⟩

/-! ### C6: link-target shape (corrected) -/

/-- Simp characterization of `Math.random().toString(36).substring(2)`:
the printed value `"0"` of `Math.random() = 0` loses everything to
`substring(2)`, a nonzero value keeps exactly its fractional digits. -/
theorem randomPageId_eq (ds : List Char) :
    randomPageId ds = if ds = [] then [] else ds := by
  by_cases h : ds = [] <;>
    simp [randomPageId, jsNumberToString36, jsSubstringFrom, h]

/-- Counterexample for C6: when `Math.random()` returns exactly 0, its
base-36 string is `"0"` and `substring(2)` leaves the empty identifier, so
the link target degenerates to `{basePath}.html` — the claim that the
identifier is never the empty string fails. -/
theorem c6_link_counterexample :
    randomPageId [] = [] ∧
    mkHref "/ephi/".toList [] = "/ephi/.html".toList := by
  constructor <;> decide

/-- C6 (amended): every fragment link target is exactly
`{basePath}{identifier}.html` where the identifier consists only of
base-36 digit characters of the printed random fraction (no `0.` numeric
prefix) — in particular it contains no path separator `/` and no `.` — but
it may be the empty string (exactly when the random fraction printed as
`"0"`). -/
theorem c6_link_shape (bp ds : List Char)
    (h : ∀ c ∈ ds, isBase36Digit c = true) :
    mkHref bp ds = bp ++ randomPageId ds ++ ".html".toList ∧
    (∀ c ∈ randomPageId ds, isBase36Digit c = true) ∧
    '/' ∉ randomPageId ds ∧
    '.' ∉ randomPageId ds ∧
    (randomPageId ds = [] ↔ ds = []) := by
  have hid : ∀ c ∈ randomPageId ds, isBase36Digit c = true := by
    intro c hc
    rw [randomPageId_eq] at hc
    by_cases hds : ds = []
    · simp [hds] at hc
    · exact h c (by simpa [hds] using hc)
  refine ⟨rfl, hid, ?_, ?_, ?_⟩
  · intro hmem
    have := hid _ hmem
    simp [isBase36Digit] at this
  · intro hmem
    have := hid _ hmem
    simp [isBase36Digit] at this
  · rw [randomPageId_eq]
    by_cases hds : ds = [] <;> simp [hds]

/-- Witness for C6 (amended): the digits `"k3"` give the link
`/ephi/k3.html`, an identifier of base-36 characters with no `/` or `.`. -/
theorem c6_link_shape_witness :
    mkHref "/ephi/".toList ['k', '3']
      = "/ephi/".toList ++ randomPageId ['k', '3'] ++ ".html".toList ∧
    '/' ∉ randomPageId ['k', '3'] ∧
    mkHref "/ephi/".toList ['k', '3'] = "/ephi/k3.html".toList :=
  ⟨(c6_link_shape "/ephi/".toList ['k', '3'] (by decide)).1,
   (c6_link_shape "/ephi/".toList ['k', '3'] (by decide)).2.2.1,
   by decide⟩

/-! ### C9: file-handle lifecycle -/

/-- C9: on every exit path of the generator — normal completion, validation
error, or stat/open/read error — the corpus file descriptor is closed in
the `finally` block exactly when it was opened; a failing close is only
logged and changes neither the status, nor the body, nor the reported error
of the attempt. -/
theorem c9_fd_closed (v : Variables) (env : Env) (b : Bool) :
    ((random_content v env).opened = true →
      (random_content v env).closeCalled = true) ∧
    ((random_content v env).opened = false →
      (random_content v env).closeCalled = false) ∧
    (random_content v env).closeFailedLogged
      = ((random_content v env).opened && env.closeFails) ∧
    (random_content v env).status
      = (random_content v { env with closeFails := b }).status ∧
    (random_content v env).body
      = (random_content v { env with closeFails := b }).body ∧
    (random_content v env).errClass
      = (random_content v { env with closeFails := b }).errClass := by
  cases hv : validateArgs v with
  | error c => simp [random_content, hv, errOutcome]
  | ok args =>
    cases hf : env.file args.corpus with
    | none => simp [random_content, hv, hf, errOutcome]
    | some content =>
      by_cases hz : content.length = 0
      · simp [random_content, hv, hf, hz, errOutcome]
      · by_cases hop : env.openFails
        · simp [random_content, hv, hf, hz, hop, errOutcome]
        · cases hbs : args.block_size <;> cases hts : args.total_size <;>
            by_cases hrd : env.readFails <;>
            simp [random_content, hv, hf, hz, hop, hrd, hbs, hts, errOutcome]

/-- Witness for C9: a successful generation opens and closes the fd, and
flipping the close-failure switch leaves the status unchanged. -/
theorem c9_fd_closed_witness :
    (random_content
        ⟨some "/ephi/", some "c.txt", some "4", some "4"⟩
        ⟨fun s => if s = "c.txt" then some "hello".toList else none,
          false, false, false, fun _ => 0, fun _ => ['z']⟩).opened = true ∧
    (random_content
        ⟨some "/ephi/", some "c.txt", some "4", some "4"⟩
        ⟨fun s => if s = "c.txt" then some "hello".toList else none,
          false, false, false, fun _ => 0, fun _ => ['z']⟩).closeCalled
      = true ∧
    (random_content
        ⟨some "/ephi/", some "c.txt", some "4", some "4"⟩
        ⟨fun s => if s = "c.txt" then some "hello".toList else none,
          false, false, false, fun _ => 0, fun _ => ['z']⟩).status
      = (random_content
        ⟨some "/ephi/", some "c.txt", some "4", some "4"⟩
        ⟨fun s => if s = "c.txt" then some "hello".toList else none,
          false, false, true, fun _ => 0, fun _ => ['z']⟩).status :=
  ⟨rfl,
   (c9_fd_closed
      ⟨some "/ephi/", some "c.txt", some "4", some "4"⟩
      ⟨fun s => if s = "c.txt" then some "hello".toList else none,
        false, false, false, fun _ => 0, fun _ => ['z']⟩ true).1 rfl,
   (c9_fd_closed
      ⟨some "/ephi/", some "c.txt", some "4", some "4"⟩
      ⟨fun s => if s = "c.txt" then some "hello".toList else none,
        false, false, false, fun _ => 0, fun _ => ['z']⟩ true).2.2.2.1⟩

/-! ### C10: fragment text inserted verbatim, no HTML escaping -/

set_option maxRecDepth 4000 in
/-- C10 (implicit): fragment text sampled from the corpus reaches the anchor
markup and the final document verbatim.  For the corpus whose bytes are
`a<"&`, the generated page body contains the unescaped anchor
`<a href="/ephi/z.html">a<"&</a>` — the metacharacters `<`, `"` and `&`
appear unescaped inside the page body and inside the `<a>` element text. -/
theorem c10_no_html_escaping :
    occursIn (random_content
        ⟨some "/ephi/", some "c.txt", some "4", some "4"⟩
        ⟨fun s => if s = "c.txt" then some "a<\"&".toList else none,
          false, false, false, fun _ => 0, fun _ => ['z']⟩).body
      "<a href=\"/ephi/z.html\">a<\"&</a>".toList = true ∧
    '<' ∈ (random_content
        ⟨some "/ephi/", some "c.txt", some "4", some "4"⟩
        ⟨fun s => if s = "c.txt" then some "a<\"&".toList else none,
          false, false, false, fun _ => 0, fun _ => ['z']⟩).body ∧
    '\"' ∈ (random_content
        ⟨some "/ephi/", some "c.txt", some "4", some "4"⟩
        ⟨fun s => if s = "c.txt" then some "a<\"&".toList else none,
          false, false, false, fun _ => 0, fun _ => ['z']⟩).body ∧
    '&' ∈ (random_content
        ⟨some "/ephi/", some "c.txt", some "4", some "4"⟩
        ⟨fun s => if s = "c.txt" then some "a<\"&".toList else none,
          false, false, false, fun _ => 0, fun _ => ['z']⟩).body := by
  refine ⟨by decide, ?_, ?_, ?_⟩ <;> decide

/-! ### Helper lemmas about normalization -/

/-- Single step of the automaton: a carriage return increments the pending
counter. -/
theorem norm1Go_cons_cr (p : Nat) (ir : Bool) (t : List Char) :
    norm1Go p ir ('\r' :: t) = norm1Go (p + 1) ir t := by
  simp [norm1Go]

/-- Single step: a line feed completes a group, emitting the run's single
space if this is the run's first group. -/
theorem norm1Go_cons_nl (p : Nat) (ir : Bool) (t : List Char) :
    norm1Go p ir ('\n' :: t)
      = (if ir then [] else [' ']) ++ norm1Go 0 true t := by
  simp [norm1Go]

/-- Single step: any other character flushes the pending carriage returns
verbatim and resets the state. -/
theorem norm1Go_cons_other (p : Nat) (ir : Bool) (c : Char) (t : List Char)
    (h1 : c ≠ '\r') (h2 : c ≠ '\n') :
    norm1Go p ir (c :: t)
      = List.replicate p '\r' ++ c :: norm1Go 0 false t := by
  simp [norm1Go, h1, h2]

/-- Leading carriage returns are absorbed into the pending counter. -/
theorem norm1Go_replicate_cr (k : Nat) :
    ∀ (p : Nat) (ir : Bool) (l : List Char),
      norm1Go p ir (List.replicate k '\r' ++ l) = norm1Go (p + k) ir l := by
  induction k with
  | zero => intro p ir l; simp
  | succ k ih =>
    intro p ir l
    rw [List.replicate_succ, List.cons_append, norm1Go_cons_cr, ih (p + 1) ir l]
    have harith : p + 1 + k = p + (k + 1) := by omega
    rw [harith]

/-- A complete `(\r*\n)+` run is consumed as one match: a single space is
emitted unless a group of the same run was already matched, and scanning
resumes after the run. -/
theorem norm1Go_run (r : List Char) (hr : IsNLRun r) :
    ∀ (p : Nat) (ir : Bool) (b : List Char),
      norm1Go p ir (r ++ b)
        = (if ir then [] else [' ']) ++ norm1Go 0 true b := by
  induction hr with
  | last k =>
    intro p ir b
    rw [List.append_assoc, List.singleton_append, norm1Go_replicate_cr,
      norm1Go_cons_nl]
  | cons k r' h ih =>
    intro p ir b
    rw [List.append_assoc, List.cons_append, norm1Go_replicate_cr,
      norm1Go_cons_nl, ih 0 true b]
    simp

/-- When the next character is not part of a run, the just-finished-run flag
does not matter. -/
theorem norm1Go_true_eq_false (b : List Char) (hb : headNoNL b = true) :
    norm1Go 0 true b = norm1Go 0 false b := by
  cases b with
  | nil => rfl
  | cons c t =>
    simp only [headNoNL, noNLCharB, Bool.not_eq_eq_eq_not, Bool.not_true,
      Bool.or_eq_false_iff, beq_eq_false_iff_ne, ne_eq] at hb
    rw [norm1Go_cons_other 0 true c t hb.1 hb.2,
      norm1Go_cons_other 0 false c t hb.1 hb.2]

/-- Replacement of a maximal newline run inside a larger string: if `a` does
not end in CR/LF and `b` does not start with CR/LF, the run `r` between them
is replaced by exactly one space, independently of the surroundings. -/
theorem norm1Go_append_run (r b : List Char) (hr : IsNLRun r)
    (hb : headNoNL b = true) :
    ∀ (a : List Char) (p : Nat) (ir : Bool), a ≠ [] → lastNoNL a = true →
      norm1Go p ir (a ++ r ++ b)
        = norm1Go p ir a ++ ' ' :: norm1Go 0 false b := by
  intro a
  induction a with
  | nil => intro p ir h; exact absurd rfl h
  | cons c a' ih =>
    intro p ir _ hlast
    cases a' with
    | nil =>
      simp only [lastNoNL, noNLCharB, Bool.not_eq_eq_eq_not, Bool.not_true,
        Bool.or_eq_false_iff, beq_eq_false_iff_ne, ne_eq] at hlast
      rw [List.cons_append, List.cons_append, List.nil_append,
        norm1Go_cons_other p ir c _ hlast.1 hlast.2,
        norm1Go_run r hr 0 false b, norm1Go_true_eq_false b hb,
        norm1Go_cons_other p ir c [] hlast.1 hlast.2]
      simp [norm1Go]
    | cons c2 a'' =>
      have hlast' : lastNoNL (c2 :: a'') = true := by
        simpa [lastNoNL] using hlast
      have hne : (c2 :: a'') ≠ [] := by simp
      by_cases hcr : c = '\r'
      · subst hcr
        rw [List.cons_append, List.cons_append, norm1Go_cons_cr,
          norm1Go_cons_cr, ih (p + 1) ir hne hlast']
      · by_cases hnl : c = '\n'
        · subst hnl
          rw [List.cons_append, List.cons_append, norm1Go_cons_nl,
            norm1Go_cons_nl, ih 0 true hne hlast']
          simp
        · rw [List.cons_append, List.cons_append,
            norm1Go_cons_other p ir c _ hcr hnl,
            norm1Go_cons_other p ir c _ hcr hnl, ih 0 false hne hlast']
          simp

/-- Two adjacent spaces collapse. -/
theorem norm2_cons_collapse (t : List Char) :
    norm2 (' ' :: ' ' :: t) = norm2 (' ' :: t) := by
  simp [norm2]

/-- A pair that is not two spaces keeps its first character. -/
theorem norm2_cons_keep (c c2 : Char) (t : List Char)
    (h : ¬ (c = ' ' ∧ c2 = ' ')) :
    norm2 (c :: c2 :: t) = c :: norm2 (c2 :: t) := by
  simp [norm2, h]

/-- A maximal run of `n + 1` spaces at the front collapses to one space. -/
theorem norm2_replicate_space (n : Nat) :
    ∀ (b : List Char), headNoSpace b = true →
      norm2 (List.replicate (n + 1) ' ' ++ b) = ' ' :: norm2 b := by
  induction n with
  | zero =>
    intro b hb
    cases b with
    | nil => rfl
    | cons c t =>
      simp only [headNoSpace, Bool.not_eq_eq_eq_not, Bool.not_true,
        beq_eq_false_iff_ne, ne_eq] at hb
      rw [List.replicate_succ, List.replicate_zero, List.cons_append,
        List.nil_append, norm2_cons_keep ' ' c t (by tauto)]
  | succ n ih =>
    intro b hb
    rw [List.replicate_succ, List.cons_append]
    rw [show List.replicate (n + 1) ' ' ++ b
        = ' ' :: (List.replicate n ' ' ++ b) by
      rw [List.replicate_succ, List.cons_append]]
    rw [norm2_cons_collapse]
    rw [show ' ' :: (List.replicate n ' ' ++ b)
        = List.replicate (n + 1) ' ' ++ b by
      rw [List.replicate_succ, List.cons_append]]
    exact ih b hb

/-- Replacement of a maximal space run inside a larger string: if `a` does
not end with a space and `b` does not start with one, the run of `n + 1`
spaces between them collapses to a single space. -/
theorem norm2_append_run (n : Nat) (b : List Char) (hb : headNoSpace b = true) :
    ∀ (a : List Char), lastNoSpace a = true →
      norm2 (a ++ List.replicate (n + 1) ' ' ++ b)
        = norm2 a ++ ' ' :: norm2 b := by
  intro a
  induction a with
  | nil =>
    intro _
    simpa using norm2_replicate_space n b hb
  | cons c a' ih =>
    intro hlast
    cases a' with
    | nil =>
      simp only [lastNoSpace, Bool.not_eq_eq_eq_not, Bool.not_true,
        beq_eq_false_iff_ne, ne_eq] at hlast
      rw [List.cons_append, List.nil_append, List.cons_append]
      rw [show List.replicate (n + 1) ' ' ++ b
          = ' ' :: (List.replicate n ' ' ++ b) by
        rw [List.replicate_succ, List.cons_append]]
      rw [norm2_cons_keep c ' ' _ (by tauto)]
      rw [show ' ' :: (List.replicate n ' ' ++ b)
          = List.replicate (n + 1) ' ' ++ b by
        rw [List.replicate_succ, List.cons_append]]
      rw [norm2_replicate_space n b hb]
      rfl
    | cons c2 a'' =>
      have hlast' : lastNoSpace (c2 :: a'') = true := by
        simpa [lastNoSpace] using hlast
      have ih' := ih hlast'
      simp only [List.cons_append, List.append_assoc] at ih' ⊢
      by_cases h12 : c = ' ' ∧ c2 = ' '
      · obtain ⟨rfl, rfl⟩ := h12
        rw [norm2_cons_collapse, norm2_cons_collapse]
        exact ih'
      · rw [norm2_cons_keep c c2 _ h12, norm2_cons_keep c c2 a'' h12, ih']
        rw [List.cons_append]

/-! ### C7: normalization collapses runs -/

/-- C7: the normalization step maps every maximal run of
carriage-return/line-feed sequences (a `(\r*\n)+` match, delimited by
non-CR/LF characters or the ends of the string) to a single space, and
every maximal run of spaces (delimited by non-space characters or the ends
of the string) to a single space, for every input string. -/
theorem c7_normalization_collapses_runs (a r b a2 b2 : List Char) (n : Nat)
    (ha : lastNoNL a = true) (hr : IsNLRun r) (hb : headNoNL b = true)
    (ha2 : lastNoSpace a2 = true) (hb2 : headNoSpace b2 = true) :
    norm1 (a ++ r ++ b) = norm1 a ++ ' ' :: norm1 b ∧
    norm2 (a2 ++ List.replicate (n + 1) ' ' ++ b2)
      = norm2 a2 ++ ' ' :: norm2 b2 := by
  constructor
  · cases ha' : a with
    | nil =>
      unfold norm1
      rw [List.nil_append, norm1Go_run r hr 0 false b,
        norm1Go_true_eq_false b hb]
      rfl
    | cons c t =>
      rw [← ha']
      exact norm1Go_append_run r b hr hb a 0 false (by simp [ha']) ha
  · exact norm2_append_run n b2 hb2 a2 ha2

/-- Witness for C7: `"x" ++ "\r\n\n" ++ "y"` normalizes to `"x y"` (the
whole CR/LF run becomes one space), and `"p" ++ "  " ++ "q"` collapses its
double space to one. -/
theorem c7_normalization_collapses_runs_witness :
    norm1 (['x'] ++ ['\r', '\n', '\n'] ++ ['y'])
      = norm1 ['x'] ++ ' ' :: norm1 ['y'] ∧
    norm2 (['p'] ++ List.replicate 2 ' ' ++ ['q'])
      = norm2 ['p'] ++ ' ' :: norm2 ['q'] ∧
    norm1 (['x'] ++ ['\r', '\n', '\n'] ++ ['y']) = ['x', ' ', 'y'] ∧
    norm2 (['p'] ++ List.replicate 2 ' ' ++ ['q']) = ['p', ' ', 'q'] :=
  ⟨(c7_normalization_collapses_runs ['x'] ['\r', '\n', '\n'] ['y'] ['p'] ['q']
      1 (by decide) (IsNLRun.cons 1 ['\n'] (IsNLRun.last 0)) (by decide)
      (by decide) (by decide)).1,
   (c7_normalization_collapses_runs ['x'] ['\r', '\n', '\n'] ['y'] ['p'] ['q']
      1 (by decide) (IsNLRun.cons 1 ['\n'] (IsNLRun.last 0)) (by decide)
      (by decide) (by decide)).2,
   by decide, by decide⟩

/-! ### C8: normalization idempotence -/

/-- The first pass removes every line feed. -/
theorem norm1Go_no_nl :
    ∀ (l : List Char) (p : Nat) (ir : Bool), '\n' ∉ norm1Go p ir l := by
  intro l
  induction l with
  | nil => intro p ir; simp [norm1Go, List.mem_replicate]
  | cons c t ih =>
    intro p ir
    by_cases h1 : c = '\r'
    · subst h1; rw [norm1Go_cons_cr]; exact ih (p + 1) ir
    · by_cases h2 : c = '\n'
      · subst h2
        rw [norm1Go_cons_nl]
        cases ir <;> simp [ih 0 true]
      · rw [norm1Go_cons_other p ir c t h1 h2]
        intro hmem
        rcases List.mem_append.mp hmem with hm | hm
        · exact absurd (List.eq_of_mem_replicate hm) (by decide)
        · rcases List.mem_cons.mp hm with hm2 | hm2
          · exact h2 hm2.symm
          · exact ih 0 false hm2

/-- On a string with no line feed the first pass is the identity (after
flushing the pending carriage returns). -/
theorem norm1Go_id_of_no_nl :
    ∀ (l : List Char) (p : Nat) (ir : Bool), '\n' ∉ l →
      norm1Go p ir l = List.replicate p '\r' ++ l := by
  intro l
  induction l with
  | nil => intro p ir _; simp [norm1Go]
  | cons c t ih =>
    intro p ir h
    have hc : c ≠ '\n' := fun hcc => h (hcc ▸ List.mem_cons_self c t)
    have ht : '\n' ∉ t := fun hm => h (List.mem_cons_of_mem c hm)
    by_cases h1 : c = '\r'
    · subst h1
      rw [norm1Go_cons_cr, ih (p + 1) ir ht, List.replicate_succ',
        List.append_assoc, List.singleton_append]
    · rw [norm1Go_cons_other p ir c t h1 hc, ih 0 false ht]
      simp

/-- `norm1` output contains no line feed. -/
theorem norm1_no_nl (l : List Char) : '\n' ∉ norm1 l :=
  norm1Go_no_nl l 0 false

/-- `norm1` is the identity on line-feed-free strings. -/
theorem norm1_id_of_no_nl (l : List Char) (h : '\n' ∉ l) : norm1 l = l := by
  simpa [norm1] using norm1Go_id_of_no_nl l 0 false h

/-- The second pass only keeps characters of its input. -/
theorem norm2_subset :
    ∀ (l : List Char) (c : Char), c ∈ norm2 l → c ∈ l := by
  intro l
  induction l with
  | nil => intro c h; simp [norm2] at h
  | cons x t ih =>
    intro c h
    cases t with
    | nil => simpa [norm2] using h
    | cons x2 t2 =>
      by_cases h12 : x = ' ' ∧ x2 = ' '
      · obtain ⟨rfl, rfl⟩ := h12
        rw [norm2_cons_collapse] at h
        exact List.mem_cons_of_mem _ (ih c h)
      · rw [norm2_cons_keep x x2 t2 h12] at h
        rcases List.mem_cons.mp h with h | h
        · exact h ▸ List.mem_cons_self x _
        · exact List.mem_cons_of_mem _ (ih c h)

/-- The second pass keeps the head character. -/
theorem norm2_cons_eq :
    ∀ (t : List Char) (c : Char), ∃ u, norm2 (c :: t) = c :: u := by
  intro t
  induction t with
  | nil => intro c; exact ⟨[], rfl⟩
  | cons x2 t2 ih =>
    intro c
    by_cases h12 : c = ' ' ∧ x2 = ' '
    · obtain ⟨rfl, rfl⟩ := h12
      obtain ⟨u, hu⟩ := ih ' '
      exact ⟨u, by rw [norm2_cons_collapse, hu]⟩
    · exact ⟨norm2 (x2 :: t2), norm2_cons_keep c x2 t2 h12⟩

/-- The second pass leaves no two adjacent spaces. -/
theorem norm2_no_double_space :
    ∀ (l : List Char), hasDoubleSpace (norm2 l) = false := by
  intro l
  induction l with
  | nil => rfl
  | cons x t ih =>
    cases t with
    | nil => simp [norm2, hasDoubleSpace]
    | cons x2 t2 =>
      by_cases h12 : x = ' ' ∧ x2 = ' '
      · obtain ⟨rfl, rfl⟩ := h12
        rw [norm2_cons_collapse]
        exact ih
      · rw [norm2_cons_keep x x2 t2 h12]
        obtain ⟨u, hu⟩ := norm2_cons_eq t2 x2
        rw [hu]
        have hx : (x == ' ' && x2 == ' ') = false := by
          by_cases hx1 : x = ' ' <;> by_cases hx2 : x2 = ' ' <;>
            simp [hx1, hx2] at h12 ⊢
        calc hasDoubleSpace (x :: x2 :: u)
            = ((x == ' ' && x2 == ' ') || hasDoubleSpace (x2 :: u)) := rfl
          _ = hasDoubleSpace (x2 :: u) := by rw [hx, Bool.false_or]
          _ = hasDoubleSpace (norm2 (x2 :: t2)) := by rw [hu]
          _ = false := ih

/-- On a string with no two adjacent spaces the second pass is the
identity. -/
theorem norm2_id_of_no_double_space :
    ∀ (l : List Char), hasDoubleSpace l = false → norm2 l = l := by
  intro l
  induction l with
  | nil => intro _; rfl
  | cons x t ih =>
    intro h
    cases t with
    | nil => rfl
    | cons x2 t2 =>
      have heq : hasDoubleSpace (x :: x2 :: t2)
          = ((x == ' ' && x2 == ' ') || hasDoubleSpace (x2 :: t2)) := rfl
      rw [heq, Bool.or_eq_false_iff] at h
      have h12 : ¬ (x = ' ' ∧ x2 = ' ') := by
        intro hx
        rw [hx.1, hx.2] at h
        simp at h
      rw [norm2_cons_keep x x2 t2 h12, ih h.2]

/-- The second pass is idempotent. -/
theorem norm2_idem (l : List Char) : norm2 (norm2 l) = norm2 l :=
  norm2_id_of_no_double_space _ (norm2_no_double_space l)

/-- C8: normalization is idempotent — applying the whitespace-collapse
rules (newline-run collapse followed by space-run collapse) twice to any
string yields the same result as applying them once. -/
theorem c8_normalization_idempotent (l : List Char) :
    normalizeText (normalizeText l) = normalizeText l := by
  unfold normalizeText
  have h1 : '\n' ∉ norm2 (norm1 l) :=
    fun hm => norm1_no_nl l (norm2_subset _ _ hm)
  rw [norm1_id_of_no_nl _ h1, norm2_idem]

end Labyrinth
